import Mathlib

/-!
Verification of the SynonymSeeker guess-resolution and session-state engine
(`src/backend/src/game_builder_agent.py`, `src/backend/src/models.py`).
Strings are modelled as `List Char`; the Python string operations used by the
code (`lower`, `strip`, `isalpha`, slicing) are embedded below.
-/

/-- Whitespace recognised by the embedding of Python `str.strip`. -/
def pyIsSpace (c : Char) : Bool :=
  c = ' ' || c = '\t' || c = '\n' || c = '\r'

/-- Embedding of Python `str.lower` on a single character (ASCII range). -/
def pyToLower (c : Char) : Char :=
  if 'A' ≤ c && c ≤ 'Z' then Char.ofNat (c.toNat + 32) else c

/-- Embedding of Python `str.isalpha` on a single character (ASCII range). -/
def pyIsAlpha (c : Char) : Bool :=
  ('a' ≤ c && c ≤ 'z') || ('A' ≤ c && c ≤ 'Z')

/-- Embedding of Python `str.lower`. -/
def pyLower (s : List Char) : List Char := s.map pyToLower

/-- Embedding of Python `str.strip`: drop leading and trailing whitespace. -/
def pyStrip (s : List Char) : List Char :=
  ((s.dropWhile pyIsSpace).reverse.dropWhile pyIsSpace).reverse

/-- Embedding of Python `str.isalpha` on a whole string: non-empty and all
alphabetic. -/
def pyIsAlphaStr (s : List Char) : Bool :=
  !s.isEmpty && s.all pyIsAlpha

/-- The apostrophe character, written by code point to keep sources plain. -/
def apostropheChar : Char := Char.ofNat 39

/-- The loop of `GameBuilderAgent._is_close_match` (game_builder_agent.py
lines 240-248). The first argument is the string iterated over (the shorter
one after the swap at line 237), the second is the string indexed into, the
third is the running `differences` counter; the final length difference is
added when the loop ends. -/
def closeMatchLoop : List Char → List Char → Nat → Bool
  | [], g, diffs => decide (diffs + g.length ≤ 2)
  | _ :: ts, [], diffs =>
      if 2 < diffs + 1 then false else closeMatchLoop ts [] (diffs + 1)
  | c :: ts, gc :: gs, diffs =>
      if gc = c then closeMatchLoop ts gs diffs
      else if 2 < diffs + 1 then false else closeMatchLoop ts gs (diffs + 1)

/-- Embedding of `GameBuilderAgent._is_close_match` (lines 231-248): length
pre-filter, swap so the first loop argument is the shorter string, then the
positional-difference loop. -/
def isCloseMatch (guess target : List Char) : Bool :=
  if 2 < ((guess.length : Int) - (target.length : Int)).natAbs then false
  else if guess.length < target.length then closeMatchLoop guess target 0
  else closeMatchLoop target guess 0

/-- Embedding of `GameBuilderAgent.validate_guess` (lines 199-229): normalize,
reject the target word, accept exact synonym matches, then fuzzy matches. -/
def validate_guess (guess target_word : List Char) (synonyms : List (List Char)) : Bool :=
  let guess_lower := pyStrip (pyLower guess)
  let target_lower := pyStrip (pyLower target_word)
  if guess_lower = target_lower then false
  else
    let synonym_words := synonyms.map pyLower
    if guess_lower ∈ synonym_words then true
    else synonym_words.any (fun syn_word => isCloseMatch guess_lower syn_word)

/-- The positional difference count the loop in `_is_close_match` computes:
mismatches at equal indices after left-alignment, plus the length
difference. -/
def posDist : List Char → List Char → Nat
  | [], b => b.length
  | a, [] => a.length
  | x :: a, y :: b => (if x = y then 0 else 1) + posDist a b

/-- Classic Levenshtein edit distance (insert, delete, substitute at unit
cost), as the specification describes the matcher. -/
def levDist : List Char → List Char → Nat
  | [], b => b.length
  | a, [] => a.length
  | x :: a, y :: b =>
      if x = y then levDist a b
      else 1 + min (levDist a b) (min (levDist (x :: a) b) (levDist a (y :: b)))
termination_by a b => a.length + b.length

theorem closeMatchLoop_eq_posDist (t : List Char) :
    ∀ (g : List Char) (d : Nat), closeMatchLoop t g d = decide (d + posDist t g ≤ 2) := by
  induction t with
  | nil => intro g d; simp [closeMatchLoop, posDist]
  | cons c ts ih =>
      intro g d
      cases g with
      | nil =>
          have hpd : posDist (c :: ts) [] = ts.length + 1 := by
            simp [posDist]
          rw [closeMatchLoop, hpd]
          by_cases h : 2 < d + 1
          · simp only [if_pos h]
            have : ¬ d + (ts.length + 1) ≤ 2 := by omega
            simp [this]
          · simp only [if_neg h]
            rw [ih [] (d + 1)]
            have hpd2 : posDist ts [] = ts.length := by
              cases ts <;> simp [posDist]
            rw [hpd2]
            congr 1
            simp only [eq_iff_iff]
            omega
      | cons gc gs =>
          rw [closeMatchLoop]
          by_cases hc : gc = c
          · simp only [if_pos hc]
            rw [ih gs d]
            have : posDist (c :: ts) (gc :: gs) = posDist ts gs := by
              simp [posDist, hc]
            rw [this]
          · simp only [if_neg hc]
            have hpd : posDist (c :: ts) (gc :: gs) = 1 + posDist ts gs := by
              have : ¬ c = gc := fun h => hc h.symm
              simp [posDist, this]
            by_cases h : 2 < d + 1
            · simp only [if_pos h]
              have : ¬ d + posDist (c :: ts) (gc :: gs) ≤ 2 := by
                rw [hpd]; omega
              simp [this]
            · simp only [if_neg h]
              rw [ih gs (d + 1), hpd]
              congr 1
              simp only [eq_iff_iff]
              omega

theorem posDist_comm (a : List Char) : ∀ b : List Char, posDist a b = posDist b a := by
  induction a with
  | nil => intro b; cases b <;> simp [posDist]
  | cons x a ih =>
      intro b
      cases b with
      | nil => simp [posDist]
      | cons y b =>
          have hxy : (x = y) ↔ (y = x) := ⟨Eq.symm, Eq.symm⟩
          simp only [posDist, ih b]
          by_cases h : x = y
          · simp [h]
          · have h2 : ¬ y = x := fun hyx => h hyx.symm
            simp [h, h2]

theorem length_diff_le_posDist (a : List Char) :
    ∀ b : List Char, ((a.length : Int) - b.length).natAbs ≤ posDist a b := by
  induction a with
  | nil => intro b; simp [posDist]
  | cons x a ih =>
      intro b
      cases b with
      | nil => simp [posDist]; omega
      | cons y b =>
          have := ih b
          simp only [posDist, List.length_cons]
          have harith : (((a.length + 1 : Nat) : Int) - ((b.length + 1 : Nat) : Int)).natAbs
              = ((a.length : Int) - b.length).natAbs := by
            congr 1
            push_cast
            ring
          rw [harith]
          by_cases h : x = y
          · simpa [h] using this
          · simp only [h, if_false]
            omega

theorem levDist_le_posDist (a : List Char) :
    ∀ b : List Char, levDist a b ≤ posDist a b := by
  induction a with
  | nil => intro b; cases b <;> simp [levDist, posDist]
  | cons x a ih =>
      intro b
      cases b with
      | nil => simp [levDist, posDist]
      | cons y b =>
          by_cases h : x = y
          · calc levDist (x :: a) (y :: b) = levDist a b := by rw [levDist]; simp [h]
              _ ≤ posDist a b := ih b
              _ ≤ posDist (x :: a) (y :: b) := by simp [posDist, h]
          · have hle : levDist (x :: a) (y :: b) ≤ 1 + levDist a b := by
              rw [levDist]
              simp only [h, if_false]
              have := min_le_left (levDist a b) (min (levDist (x :: a) b) (levDist a (y :: b)))
              omega
            calc levDist (x :: a) (y :: b) ≤ 1 + levDist a b := hle
              _ ≤ 1 + posDist a b := by have := ih b; omega
              _ = posDist (x :: a) (y :: b) := by simp [posDist, h]

theorem isCloseMatch_eq_posDist (g s : List Char) :
    isCloseMatch g s = decide (((g.length : Int) - s.length).natAbs ≤ 2 ∧ posDist g s ≤ 2) := by
  unfold isCloseMatch
  by_cases hpre : 2 < ((g.length : Int) - (s.length : Int)).natAbs
  · have : ¬ (((g.length : Int) - s.length).natAbs ≤ 2 ∧ posDist g s ≤ 2) := by
      intro ⟨h1, _⟩; omega
    simp [hpre, this]
  · have hlen : ((g.length : Int) - s.length).natAbs ≤ 2 := by omega
    by_cases hlt : g.length < s.length
    · rw [if_neg hpre, if_pos hlt, closeMatchLoop_eq_posDist]
      simp [hlen]
    · rw [if_neg hpre, if_neg hlt, closeMatchLoop_eq_posDist, posDist_comm]
      simp [hlen]

/-- C1 (counterexample): guess "hat" and synonym "chat" are within length
difference 1 and classic Levenshtein distance 1, the guess differs from the
target word, yet `validate_guess` rejects the guess: the gameplay matcher is
not classic Levenshtein with threshold 2. -/
theorem C1_counterexample_levenshtein :
    (((("hat".data).length : Int) - (("chat".data).length : Int)).natAbs ≤ 2 ∧
        levDist (pyLower "hat".data) (pyLower "chat".data) ≤ 2 ∧
        "hat".data ≠ "cold".data) ∧
      validate_guess "hat".data "cold".data
          ["chat".data, "zzzzzz".data, "qqqqqq".data, "wwwwww".data] = false := by
  refine ⟨⟨by decide, ?_, by decide⟩, by decide⟩
  have h : levDist (pyLower "hat".data) (pyLower "chat".data) = 1 := by
    simp +decide [levDist, pyLower, pyToLower]
  omega

/-- C1 (amended): after the length pre-filter, the gameplay fuzzy matcher
accepts by the positional difference count `posDist` (mismatches at equal
indices after left-alignment plus the length difference) with fixed threshold
2, not by classic Levenshtein distance; since `posDist` dominates Levenshtein,
the rejection half of the original claim still holds: when the normalized
guess equals no synonym exactly and every synonym within length difference 2
has Levenshtein distance above 2, `validate_guess` returns false. -/
theorem C1_amended_positional_distance (guess target_word : List Char)
    (synonyms : List (List Char)) :
    (validate_guess guess target_word synonyms = true ↔
      (pyStrip (pyLower guess) ≠ pyStrip (pyLower target_word) ∧
        (pyStrip (pyLower guess) ∈ synonyms.map pyLower ∨
          ∃ s ∈ synonyms.map pyLower,
            (((pyStrip (pyLower guess)).length : Int) - (s.length : Int)).natAbs ≤ 2 ∧
              posDist (pyStrip (pyLower guess)) s ≤ 2))) ∧
    ((∀ s ∈ synonyms.map pyLower,
        s ≠ pyStrip (pyLower guess) ∧
          ((((pyStrip (pyLower guess)).length : Int) - (s.length : Int)).natAbs ≤ 2 →
            2 < levDist (pyStrip (pyLower guess)) s)) →
      validate_guess guess target_word synonyms = false) := by
  constructor
  · unfold validate_guess
    by_cases heq : pyStrip (pyLower guess) = pyStrip (pyLower target_word)
    · simp [heq]
    · simp only [heq, if_false, ne_eq, not_false_eq_true, true_and]
      by_cases hmem : pyStrip (pyLower guess) ∈ synonyms.map pyLower
      · simp [hmem]
      · simp only [hmem, if_false, false_or, List.any_eq_true]
        constructor
        · rintro ⟨s, hs, hclose⟩
          refine ⟨s, hs, ?_⟩
          rw [isCloseMatch_eq_posDist] at hclose
          exact of_decide_eq_true hclose
        · rintro ⟨s, hs, h1, h2⟩
          refine ⟨s, hs, ?_⟩
          rw [isCloseMatch_eq_posDist]
          exact decide_eq_true ⟨h1, h2⟩
  · intro hall
    by_cases htrue : validate_guess guess target_word synonyms = true
    · exfalso
      unfold validate_guess at htrue
      by_cases heq : pyStrip (pyLower guess) = pyStrip (pyLower target_word)
      · simp [heq] at htrue
      · simp only [heq, if_false] at htrue
        by_cases hmem : pyStrip (pyLower guess) ∈ synonyms.map pyLower
        · exact (hall _ hmem).1 rfl
        · simp only [hmem, if_false, List.any_eq_true] at htrue
          obtain ⟨s, hs, hclose⟩ := htrue
          rw [isCloseMatch_eq_posDist] at hclose
          obtain ⟨h1, h2⟩ := of_decide_eq_true hclose
          have hlev := (hall s hs).2 h1
          have hlp := levDist_le_posDist (pyStrip (pyLower guess)) s
          omega
    · exact Bool.eq_false_iff.mpr (fun h => htrue h)

/-- C1 (witness): the amended characterization evaluated at guess "joyfl",
target "happy" and the happy-synonym list: the guess is accepted because its
positional difference to "joyful" is 2. -/
theorem C1_amended_positional_distance_witness :
    validate_guess "joyfl".data "happy".data
        ["joyful".data, "cheerful".data, "glad".data, "pleased".data] = true :=
  ((C1_amended_positional_distance "joyfl".data "happy".data
      ["joyful".data, "cheerful".data, "glad".data, "pleased".data]).1).mpr
    (by decide)

/-- Game status enumeration from `models.GameStatus`. -/
inductive GameStatus where
  | active
  | completed
  | givenUp
deriving DecidableEq

/-- The string each status serializes to (`GameStatus.value`). -/
def status_value : GameStatus → List Char
  | GameStatus.active => "active".data
  | GameStatus.completed => "completed".data
  | GameStatus.givenUp => "given-up".data

/-- Synonym slot from `models.SynonymSlot`: optional revealed word, letter
count, found flag. -/
structure SynonymSlot where
  word : Option (List Char)
  letter_count : Nat
  found : Bool
deriving DecidableEq

/-- Game session from `models.GameSession`, together with the hidden synonym
list the agent stores on the session as `_actual_synonyms`
(game_builder_agent.py line 497). -/
structure GameSession where
  target_word : List Char
  synonyms : List SynonymSlot
  guess_count : Nat
  status : GameStatus
  guessed_words : List (List Char)
  actual_synonyms : List (List Char)
deriving DecidableEq

/-- Embedding of `GameSession.add_guess` (models.py lines 56-60): append the
guess only when not already present, always increment the count. -/
def add_guess (s : GameSession) (guess : List Char) : GameSession :=
  { s with
    guessed_words :=
      if guess ∈ s.guessed_words then s.guessed_words else s.guessed_words ++ [guess],
    guess_count := s.guess_count + 1 }

/-- Embedding of `GameSession.is_complete` (models.py lines 52-54). -/
def is_complete (s : GameSession) : Bool :=
  s.synonyms.all (fun slot => slot.found)

/-- Embedding of `GameBuilderAgent._sanitize_and_validate_guess` (lines
808-831): empty, over-length, multi-word and character checks, where hyphens
and apostrophes are removed before the alphabetic check. -/
def sanitize_and_validate_guess (guess : List Char) : Except (List Char) (List Char) :=
  if guess = [] then Except.error "Guess is required".data
  else
    let sanitized := pyStrip guess
    if sanitized = [] then Except.error "Guess cannot be empty".data
    else if 50 < sanitized.length then
      Except.error "Guess is too long (maximum 50 characters)".data
    else if sanitized.contains ' ' then Except.error "Please enter only one word".data
    else if pyIsAlphaStr (sanitized.filter (fun c => !(c = '-' || c = apostropheChar))) then
      Except.ok sanitized
    else Except.error "Please use only letters".data

/-- The match test used by the slot-filling loop in `submit_guess` (lines
684-686): exact lowercase equality or a close match of the lowercased
words. -/
def slot_matches (guess syn : List Char) : Bool :=
  if pyLower guess = pyLower syn then true
  else isCloseMatch (pyLower guess) (pyLower syn)

/-- Embedding of the slot-filling loop of `submit_guess` (lines 681-689): the
first slot with no revealed word whose same-index hidden synonym matches is
filled with the guess and marked found, then the loop breaks; slots beyond
the hidden synonym list are never filled. -/
def fill_slots (slots : List SynonymSlot) (actual : List (List Char)) (guess : List Char) :
    List SynonymSlot :=
  match slots, actual with
  | [], _ => []
  | slot :: rest, [] => slot :: rest
  | slot :: rest, syn :: syns =>
      if slot.word.isNone && slot_matches guess syn then
        { slot with word := some guess, found := true } :: rest
      else slot :: fill_slots rest syns guess

/-- Outcome of one `submit_guess` call, abstracting the response messages of
game_builder_agent.py by their branch. -/
inductive GuessOutcome where
  | sessionNotActive
  | invalidInput (message : List Char)
  | targetWordGuess
  | duplicateGuess (word : List Char)
  | correct (word : List Char) (completedNow : Bool)
  | incorrect (word hint : List Char)
deriving DecidableEq

/-- Embedding of `GameBuilderAgent.submit_guess` (lines 602-726) on a fetched
session: status short-circuit, input sanitization (counting invalid
attempts), target-word rejection (appending to `guessed_words` without a
duplicate check), duplicate rejection, then validation, slot filling and the
completion transition; `hintFn` stands for the hint chain invoked on an
incorrect guess. -/
def submit_guess (hintFn : List Char → List Char → List Char) (session : GameSession)
    (guess : List Char) : GuessOutcome × GameSession :=
  if session.status ≠ GameStatus.active then (GuessOutcome.sessionNotActive, session)
  else
    match sanitize_and_validate_guess guess with
    | Except.error msg =>
        (GuessOutcome.invalidInput msg, { session with guess_count := session.guess_count + 1 })
    | Except.ok sanitized =>
        if pyLower sanitized = pyLower session.target_word then
          (GuessOutcome.targetWordGuess,
            { session with
              guess_count := session.guess_count + 1,
              guessed_words := session.guessed_words ++ [sanitized] })
        else if pyLower sanitized ∈ session.guessed_words.map pyLower then
          (GuessOutcome.duplicateGuess sanitized,
            { session with guess_count := session.guess_count + 1 })
        else
          let session1 := add_guess session sanitized
          if validate_guess sanitized session1.target_word session1.actual_synonyms then
            let session2 :=
              { session1 with
                synonyms := fill_slots session1.synonyms session1.actual_synonyms sanitized }
            if is_complete session2 then
              (GuessOutcome.correct sanitized true,
                { session2 with status := GameStatus.completed })
            else (GuessOutcome.correct sanitized false, session2)
          else
            (GuessOutcome.incorrect sanitized (hintFn sanitized session1.target_word), session1)

/-- Embedding of the reveal loop of `GameBuilderAgent.give_up` (lines
880-883): every not-found slot whose index is inside the hidden synonym list
is revealed and marked found. -/
def reveal_slots (slots : List SynonymSlot) (actual : List (List Char)) : List SynonymSlot :=
  match slots, actual with
  | [], _ => []
  | slot :: rest, [] => slot :: rest
  | slot :: rest, syn :: syns =>
      (if slot.found = false then { slot with word := some syn, found := true } else slot)
        :: reveal_slots rest syns

/-- Embedding of `GameBuilderAgent.give_up` (lines 863-900) on a fetched
session: reveal the remaining slots and set the status to GivenUp, with no
check of the current status. -/
def give_up (session : GameSession) : GameSession :=
  { session with
    synonyms := reveal_slots session.synonyms session.actual_synonyms,
    status := GameStatus.givenUp }

/-- The session built by `start_new_game` (lines 478-497): one unfound slot
per hidden synonym carrying its letter count, Active status, zero guesses. -/
def start_session (target : List Char) (actual : List (List Char)) : GameSession :=
  { target_word := target,
    synonyms := actual.map (fun syn => { word := none, letter_count := syn.length, found := false }),
    guess_count := 0,
    status := GameStatus.active,
    guessed_words := [],
    actual_synonyms := actual }

/-- Session states reachable through the engine: a started session (the
puzzle validator guarantees exactly 4 synonyms), followed by any sequence of
guess submissions and give-ups. -/
inductive Reachable : GameSession → Prop where
  | start (target : List Char) (actual : List (List Char)) (h4 : actual.length = 4) :
      Reachable (start_session target actual)
  | step_guess (hintFn : List Char → List Char → List Char) (s : GameSession)
      (g : List Char) : Reachable s → Reachable (submit_guess hintFn s g).2
  | step_giveup (s : GameSession) : Reachable s → Reachable (give_up s)

/-- A concrete completed session used in counterexamples and witnesses. -/
def completedSessionEx : GameSession :=
  { target_word := "happy".data,
    synonyms :=
      [{ word := some "glad".data, letter_count := 4, found := true },
       { word := some "joyful".data, letter_count := 6, found := true },
       { word := some "pleased".data, letter_count := 7, found := true },
       { word := some "cheerful".data, letter_count := 8, found := true }],
    guess_count := 4,
    status := GameStatus.completed,
    guessed_words := ["glad".data, "joyful".data, "pleased".data, "cheerful".data],
    actual_synonyms := ["glad".data, "joyful".data, "pleased".data, "cheerful".data] }

theorem reveal_slots_all_found (slots : List SynonymSlot) :
    ∀ actual : List (List Char), (∀ slot ∈ slots, slot.found = true) →
      reveal_slots slots actual = slots := by
  induction slots with
  | nil => intro actual _; cases actual <;> rfl
  | cons slot rest ih =>
      intro actual hall
      cases actual with
      | nil => rfl
      | cons syn syns =>
          have hslot : slot.found = true := hall slot (by simp)
          simp only [reveal_slots, hslot]
          rw [ih syns (fun s hs => hall s (by simp [hs]))]
          simp

/-- C2 (counterexample): `give_up` on a session whose status is Completed
changes the status to GivenUp, so Completed is not terminal under
`give_up`. -/
theorem C2_counterexample_giveup_on_completed :
    completedSessionEx.status = GameStatus.completed ∧
      (give_up completedSessionEx).status ≠ GameStatus.completed := by
  decide

/-- C2 (amended): `submit_guess` never touches a session that is not Active,
so Completed and GivenUp are terminal under guessing; `give_up` always sets
the status to GivenUp regardless of the prior status, so a GivenUp session
with all slots found is left unchanged by a second give-up, but a Completed
session transitions to GivenUp. -/
theorem C2_amended_terminality (hintFn : List Char → List Char → List Char)
    (s : GameSession) (g : List Char) :
    (s.status ≠ GameStatus.active →
      submit_guess hintFn s g = (GuessOutcome.sessionNotActive, s)) ∧
    (give_up s).status = GameStatus.givenUp ∧
    (s.status = GameStatus.givenUp → is_complete s = true → give_up s = s) := by
  refine ⟨?_, rfl, ?_⟩
  · intro h
    unfold submit_guess
    simp [h]
  · intro hstat hcomp
    unfold give_up
    have hall : ∀ slot ∈ s.synonyms, slot.found = true := by
      intro slot hs
      have := List.all_eq_true.mp hcomp slot hs
      simpa using this
    rw [reveal_slots_all_found s.synonyms s.actual_synonyms hall, ← hstat]

/-- C2 (witness): the amended terminality facts evaluated on the concrete
completed session. -/
theorem C2_amended_terminality_witness :
    completedSessionEx.status ≠ GameStatus.active ∧
      submit_guess (fun _ _ => []) completedSessionEx "glad".data =
        (GuessOutcome.sessionNotActive, completedSessionEx) := by
  refine ⟨by decide, ?_⟩
  exact (C2_amended_terminality (fun _ _ => []) completedSessionEx "glad".data).1 (by decide)

theorem submit_guess_status_shape (hintFn : List Char → List Char → List Char)
    (s : GameSession) (g : List Char) :
    ((submit_guess hintFn s g).2.status = s.status ∧
        (submit_guess hintFn s g).2.synonyms = s.synonyms) ∨
      ((submit_guess hintFn s g).2.status = GameStatus.completed ∧
        is_complete (submit_guess hintFn s g).2 = true) ∨
      (s.status = GameStatus.active ∧
        (submit_guess hintFn s g).2.status = s.status ∧
        is_complete (submit_guess hintFn s g).2 = false) := by
  unfold submit_guess
  split
  · left; exact ⟨rfl, rfl⟩
  case isFalse hne =>
    have hact : s.status = GameStatus.active := not_not.mp hne
    split
    · left; exact ⟨rfl, rfl⟩
    · split
      · left; exact ⟨rfl, rfl⟩
      · split
        · left; exact ⟨rfl, rfl⟩
        · dsimp only
          split
          · split
            case isTrue hcmp => right; left; exact ⟨rfl, hcmp⟩
            case isFalse hcmp =>
              right; right
              refine ⟨hact, rfl, ?_⟩
              cases hb : is_complete _
              · rfl
              · exact absurd hb hcmp
          · left; exact ⟨rfl, rfl⟩

/-- C3 (counterexample): give-up on a fresh (all-unfound) session produces a
reachable state whose four slots are all found while its status is GivenUp,
so "status equals Completed iff all four slots are found" fails as a
biconditional on reachable states. -/
theorem C3_counterexample_giveup_breaks_iff :
    Reachable (give_up (start_session "happy".data
        ["glad".data, "joyful".data, "pleased".data, "cheerful".data])) ∧
      ¬((give_up (start_session "happy".data
            ["glad".data, "joyful".data, "pleased".data, "cheerful".data])).status =
          GameStatus.completed ↔
        is_complete (give_up (start_session "happy".data
            ["glad".data, "joyful".data, "pleased".data, "cheerful".data])) = true) := by
  constructor
  · exact Reachable.step_giveup _ (Reachable.start _ _ (by decide))
  · decide

/-- C3 (amended): on every reachable session state, status Completed implies
all four slots are found, and all slots found implies the status is no longer
Active (it is Completed or GivenUp); the full biconditional fails only
because give-up also reveals every slot while setting status GivenUp. -/
theorem C3_amended_completion_invariant (s : GameSession) (h : Reachable s) :
    (s.status = GameStatus.completed → is_complete s = true) ∧
      (is_complete s = true → s.status ≠ GameStatus.active) := by
  induction h with
  | start target actual h4 =>
      constructor
      · intro hc
        exact absurd hc (by simp [start_session])
      · intro hc
        exfalso
        cases actual with
        | nil => simp at h4
        | cons a rest =>
            simp [is_complete, start_session] at hc
  | step_guess hintFn s g hr ih =>
      rcases submit_guess_status_shape hintFn s g with hsh | hsh | hsh
      · constructor
        · intro hc
          rw [hsh.1] at hc
          have := ih.1 hc
          simpa [is_complete, hsh.2]
        · intro hc
          rw [hsh.1]
          apply ih.2
          simpa [is_complete, hsh.2] using hc
      · exact ⟨fun _ => hsh.2, fun _ => by rw [hsh.1]; decide⟩
      · constructor
        · intro hc
          rw [hsh.2.1, hsh.1] at hc
          exact absurd hc (by decide)
        · intro hc
          rw [hsh.2.2] at hc
          exact absurd hc (by decide)
  | step_giveup s hr ih =>
      constructor
      · intro hc
        exact absurd hc (by simp [give_up])
      · intro _
        simp [give_up]

/-- C3 (witness): the amended invariant instantiated at a concrete freshly
started session. -/
theorem C3_amended_completion_invariant_witness :
    ((start_session "happy".data
          ["glad".data, "joyful".data, "pleased".data, "cheerful".data]).status =
        GameStatus.completed →
      is_complete (start_session "happy".data
          ["glad".data, "joyful".data, "pleased".data, "cheerful".data]) = true) ∧
      (is_complete (start_session "happy".data
            ["glad".data, "joyful".data, "pleased".data, "cheerful".data]) = true →
        (start_session "happy".data
            ["glad".data, "joyful".data, "pleased".data, "cheerful".data]).status ≠
          GameStatus.active) :=
  C3_amended_completion_invariant _ (Reachable.start _ _ (by decide))

/-- A hint function standing for a hint chain whose text is irrelevant. -/
def noHint : List Char → List Char → List Char := fun _ _ => []

/-- A concrete freshly started session for the curated "happy" puzzle. -/
def happySessionEx : GameSession :=
  start_session "happy".data
    ["joyful".data, "cheerful".data, "glad".data, "pleased".data]

/-- C4 (code bug): submitting the close misspelling "joyfull" against hidden
synonym "joyful" is accepted by the fuzzy matcher, and `submit_guess` stores
the raw guess in the slot (game_builder_agent.py line 687), so the revealed
word has 7 letters while the slot's letter count is 6 — violating the
invariant that `models.SynonymSlot` itself enforces at construction time. -/
theorem C4_code_bug_fuzzy_fill_length :
    (submit_guess noHint happySessionEx "joyfull".data).2.synonyms.head? =
        some { word := some "joyfull".data, letter_count := 6, found := true } ∧
      ("joyfull".data).length ≠ 6 := by
  decide

/-- C5 (counterexample): submitting the target word "happy" twice appends it
to `guessed_words` on both submissions (the target-word branch precedes the
duplicate check and appends unconditionally, lines 636-645), so the word is
recorded twice and the second outcome is the target-word rejection, not a
duplication outcome. -/
theorem C5_counterexample_target_word_recorded_twice :
    (submit_guess noHint (submit_guess noHint happySessionEx "happy".data).2
          "happy".data).2.guessed_words = ["happy".data, "happy".data] ∧
      (submit_guess noHint (submit_guess noHint happySessionEx "happy".data).2
          "happy".data).1 = GuessOutcome.targetWordGuess ∧
      (submit_guess noHint (submit_guess noHint happySessionEx "happy".data).2
          "happy".data).2.guess_count = 2 := by
  decide

theorem submit_guess_first_time (hintFn : List Char → List Char → List Char)
    (s : GameSession) (w w' : List Char)
    (hact : s.status = GameStatus.active)
    (hsan : sanitize_and_validate_guess w = Except.ok w')
    (htgt : ¬ pyLower w' = pyLower s.target_word)
    (hnew : pyLower w' ∉ s.guessed_words.map pyLower) :
    (submit_guess hintFn s w).2.guessed_words = s.guessed_words ++ [w'] ∧
      (submit_guess hintFn s w).2.guess_count = s.guess_count + 1 ∧
      (submit_guess hintFn s w).2.target_word = s.target_word := by
  have hmem : w' ∉ s.guessed_words := fun hm => hnew (List.mem_map_of_mem pyLower hm)
  simp only [submit_guess, hsan]
  rw [if_neg (by simp [hact] : ¬(s.status ≠ GameStatus.active))]
  rw [if_neg htgt, if_neg hnew]
  split
  · split
    · exact ⟨by simp [add_guess, hmem], rfl, rfl⟩
    · exact ⟨by simp [add_guess, hmem], rfl, rfl⟩
  · exact ⟨by simp [add_guess, hmem], rfl, rfl⟩

theorem submit_guess_duplicate (hintFn : List Char → List Char → List Char)
    (s : GameSession) (w w' : List Char)
    (hact : s.status = GameStatus.active)
    (hsan : sanitize_and_validate_guess w = Except.ok w')
    (htgt : ¬ pyLower w' = pyLower s.target_word)
    (hdup : pyLower w' ∈ s.guessed_words.map pyLower) :
    submit_guess hintFn s w =
      (GuessOutcome.duplicateGuess w',
        { s with guess_count := s.guess_count + 1 }) := by
  simp only [submit_guess, hsan]
  rw [if_neg (by simp [hact] : ¬(s.status ≠ GameStatus.active))]
  rw [if_neg htgt, if_pos hdup]

/-- C5 (amended): for a well-formed guess that is not the target word and was
not guessed before, the first submission records the normalized guess exactly
once and increments the count; if the session is still Active afterwards, the
second submission of the same guess increments the count again, changes
nothing else, and returns the duplication outcome without re-running
validation or the hint chain. The original claim fails for the target word
itself, which is appended to `guessed_words` on every submission. -/
theorem C5_amended_duplicate_handling (hintFn : List Char → List Char → List Char)
    (s : GameSession) (w w' : List Char)
    (hact : s.status = GameStatus.active)
    (hsan : sanitize_and_validate_guess w = Except.ok w')
    (htgt : ¬ pyLower w' = pyLower s.target_word)
    (hnew : pyLower w' ∉ s.guessed_words.map pyLower)
    (hact1 : (submit_guess hintFn s w).2.status = GameStatus.active) :
    (submit_guess hintFn s w).2.guess_count = s.guess_count + 1 ∧
      (submit_guess hintFn s w).2.guessed_words = s.guessed_words ++ [w'] ∧
      submit_guess hintFn (submit_guess hintFn s w).2 w =
        (GuessOutcome.duplicateGuess w',
          { (submit_guess hintFn s w).2 with
            guess_count := (submit_guess hintFn s w).2.guess_count + 1 }) := by
  obtain ⟨hg, hc, ht⟩ := submit_guess_first_time hintFn s w w' hact hsan htgt hnew
  refine ⟨hc, hg, ?_⟩
  apply submit_guess_duplicate hintFn _ w w' hact1 hsan
  · rw [ht]; exact htgt
  · rw [hg, List.map_append]
    simp

/-- C5 (witness): the amended duplicate handling evaluated on the fresh
"happy" session with the incorrect guess "sad" submitted twice. -/
theorem C5_amended_duplicate_handling_witness :
    (submit_guess noHint happySessionEx "sad".data).2.guess_count = 1 ∧
      (submit_guess noHint happySessionEx "sad".data).2.guessed_words = [] ++ ["sad".data] ∧
      submit_guess noHint (submit_guess noHint happySessionEx "sad".data).2 "sad".data =
        (GuessOutcome.duplicateGuess "sad".data,
          { (submit_guess noHint happySessionEx "sad".data).2 with
            guess_count := (submit_guess noHint happySessionEx "sad".data).2.guess_count + 1 }) :=
  C5_amended_duplicate_handling noHint happySessionEx "sad".data "sad".data
    (by decide) (by rfl) (by decide) (by decide) (by decide)

/-- C6: any guess that normalizes (lowercase, trim) to the target word is
rejected by `validate_guess`, regardless of the synonym list — even when the
target word itself appears among the synonyms. -/
theorem C6_target_word_never_accepted (guess target_word : List Char)
    (synonyms : List (List Char))
    (h : pyStrip (pyLower guess) = pyStrip (pyLower target_word)) :
    validate_guess guess target_word synonyms = false := by
  unfold validate_guess
  simp [h]

/-- C6 (witness): the casing/whitespace variant " HAPPY " of target "happy"
is rejected although "happy" is listed as a synonym. -/
theorem C6_target_word_never_accepted_witness :
    validate_guess " HAPPY ".data "happy".data
        ["happy".data, "joyful".data, "glad".data, "pleased".data] = false :=
  C6_target_word_never_accepted " HAPPY ".data "happy".data
    ["happy".data, "joyful".data, "glad".data, "pleased".data] (by decide)

/-- Index of the first slot the specification's assignment rule selects: the
least index whose slot is not yet found and whose same-index hidden synonym
matches the guess. Modelled from the spec's slot-assignment sentence for
comparison with `fill_slots`. -/
def first_match_index (slots : List SynonymSlot) (actual : List (List Char))
    (guess : List Char) : Option Nat :=
  match slots, actual with
  | [], _ => none
  | _ :: _, [] => none
  | slot :: rest, syn :: syns =>
      if slot.found = false ∧ slot_matches guess syn = true then some 0
      else (first_match_index rest syns guess).map (· + 1)

theorem slot_not_qualifies (slot : SynonymSlot) (g syn : List Char)
    (hfst : ¬(slot.found = false ∧ slot_matches g syn = true)) :
    slot.found = true ∨ slot_matches g syn = false := by
  by_cases hm : slot_matches g syn = true
  · left
    cases hb : slot.found
    · exact absurd ⟨hb, hm⟩ hfst
    · rfl
  · right
    simpa using hm

theorem slot_skip_cond (slot : SynonymSlot) (g syn : List Char)
    (hwf : slot.word = none ↔ slot.found = false)
    (hfst : ¬(slot.found = false ∧ slot_matches g syn = true)) :
    (slot.word.isNone && slot_matches g syn) = false := by
  rcases slot_not_qualifies slot g syn hfst with hft | hm
  · have hne : slot.word ≠ none := by
      intro hn
      rw [hwf.mp hn] at hft
      cases hft
    cases hw : slot.word with
    | none => exact absurd hw hne
    | some a => simp [hw]
  · simp [hm]

/-- C7: under the reachable-state connection between `word` and `found` on
each slot, the filling loop of `submit_guess` marks exactly the first
not-yet-found slot whose same-index hidden synonym matches the guess (and
only replaces that one slot), and leaves the slot list unchanged when no slot
qualifies; earlier slots are either already found or fail the positional
match, so a found slot is never reassigned and a guess never fills a slot at
a different index than its matching synonym. -/
theorem C7_first_unfound_matching_slot (slots : List SynonymSlot)
    (actual : List (List Char)) (g : List Char)
    (hwf : ∀ slot ∈ slots, slot.word = none ↔ slot.found = false) :
    (∀ j, first_match_index slots actual g = some j →
      ∃ slotj, slots.get? j = some slotj ∧ slotj.found = false ∧
        (∃ synj, actual.get? j = some synj ∧ slot_matches g synj = true) ∧
        (∀ k slotk synk, k < j → slots.get? k = some slotk → actual.get? k = some synk →
          slotk.found = true ∨ slot_matches g synk = false) ∧
        fill_slots slots actual g =
          slots.set j { slotj with word := some g, found := true }) ∧
    (first_match_index slots actual g = none →
      fill_slots slots actual g = slots ∧
      ∀ k slotk synk, slots.get? k = some slotk → actual.get? k = some synk →
        slotk.found = true ∨ slot_matches g synk = false) := by
  induction slots generalizing actual with
  | nil =>
      refine ⟨fun j hj => ?_, fun _ => ⟨?_, ?_⟩⟩
      · cases actual <;> simp [first_match_index] at hj
      · cases actual <;> rfl
      · intro k slotk synk hk
        simp at hk
  | cons slot rest ih =>
      have hslot := hwf slot (by simp)
      have hrest : ∀ s ∈ rest, s.word = none ↔ s.found = false :=
        fun s hs => hwf s (List.mem_cons_of_mem slot hs)
      cases actual with
      | nil =>
          refine ⟨fun j hj => ?_, fun _ => ⟨rfl, ?_⟩⟩
          · simp [first_match_index] at hj
          · intro k slotk synk _ hsyn
            simp at hsyn
      | cons syn syns =>
          by_cases hfst : slot.found = false ∧ slot_matches g syn = true
          · constructor
            · intro j hj
              have hj0 : j = 0 := by
                simp only [first_match_index, if_pos hfst] at hj
                exact (Option.some_inj.mp hj).symm
              subst hj0
              refine ⟨slot, rfl, hfst.1, ⟨syn, rfl, hfst.2⟩, ?_, ?_⟩
              · intro k _ _ hk
                omega
              · have hword : slot.word.isNone = true := by
                  rw [Option.isNone_iff_eq_none]
                  exact hslot.mpr hfst.1
                simp only [fill_slots, hword, hfst.2, Bool.and_self, if_pos]
                rfl
            · intro hj
              simp only [first_match_index, if_pos hfst] at hj
              cases hj
          · have hcond := slot_skip_cond slot g syn hslot hfst
            have hfill : fill_slots (slot :: rest) (syn :: syns) g =
                slot :: fill_slots rest syns g := by
              simp [fill_slots, hcond]
            have hfmi : first_match_index (slot :: rest) (syn :: syns) g =
                (first_match_index rest syns g).map (· + 1) := by
              simp only [first_match_index, if_neg hfst]
            constructor
            · intro j hj
              rw [hfmi, Option.map_eq_some'] at hj
              obtain ⟨j0, hj0, hjeq⟩ := hj
              obtain ⟨slotj, hget, hfound, hsyn, hearlier, hfillrest⟩ :=
                (ih syns hrest).1 j0 hj0
              subst hjeq
              refine ⟨slotj, by simpa using hget, hfound, ?_, ?_, ?_⟩
              · obtain ⟨synj, hs1, hs2⟩ := hsyn
                exact ⟨synj, by simpa using hs1, hs2⟩
              · intro k slotk synk hk hgk hsk
                cases k with
                | zero =>
                    have hsl : slotk = slot := by
                      have := hgk
                      simp at this
                      exact this.symm
                    have hsy : synk = syn := by
                      have := hsk
                      simp at this
                      exact this.symm
                    rw [hsl, hsy]
                    exact slot_not_qualifies slot g syn hfst
                | succ k0 =>
                    have hk0 : k0 < j0 := by omega
                    simp only [List.get?_cons_succ] at hgk hsk
                    exact hearlier k0 slotk synk hk0 hgk hsk
              · rw [hfill, hfillrest]
                rfl
            · intro hj
              rw [hfmi, Option.map_eq_none'] at hj
              obtain ⟨hfillrest, hallrest⟩ := (ih syns hrest).2 hj
              refine ⟨by rw [hfill, hfillrest], ?_⟩
              intro k slotk synk hgk hsk
              cases k with
              | zero =>
                  have hsl : slotk = slot := by
                    have := hgk
                    simp at this
                    exact this.symm
                  have hsy : synk = syn := by
                    have := hsk
                    simp at this
                    exact this.symm
                  rw [hsl, hsy]
                  exact slot_not_qualifies slot g syn hfst
              | succ k0 =>
                  simp only [List.get?_cons_succ] at hgk hsk
                  exact hallrest k0 slotk synk hgk hsk

/-- C7 (witness): with the first slot already found and the guess "joyfull"
matching the hidden synonym at index 1, the loop fills exactly index 1. -/
theorem C7_first_unfound_matching_slot_witness :
    (∀ slot ∈ [({ word := some "glad".data, letter_count := 4, found := true } : SynonymSlot),
        { word := none, letter_count := 6, found := false }],
      slot.word = none ↔ slot.found = false) ∧
    fill_slots
        [{ word := some "glad".data, letter_count := 4, found := true },
         { word := none, letter_count := 6, found := false }]
        ["glad".data, "joyful".data] "joyfull".data =
      [{ word := some "glad".data, letter_count := 4, found := true },
       { word := some "joyfull".data, letter_count := 6, found := true }] := by
  refine ⟨by decide, ?_⟩
  have h := (C7_first_unfound_matching_slot
      [{ word := some "glad".data, letter_count := 4, found := true },
       { word := none, letter_count := 6, found := false }]
      ["glad".data, "joyful".data] "joyfull".data (by decide)).1 1 (by decide)
  obtain ⟨slotj, hget, _, _, _, hfill⟩ := h
  have hslotj : slotj = { word := none, letter_count := 6, found := false } := by
    have := hget
    simp at this
    exact this.symm
  rw [hfill, hslotj]
  decide

/-- A word wrapped in the single quotes the hint messages use. -/
def quoteWord (s : List Char) : List Char :=
  apostropheChar :: (s ++ [apostropheChar])

/-- The static category-hint table of
`GameBuilderAgent._generate_emergency_fallback_hint` (lines 349-358). -/
def category_hints : List (List Char × List Char) :=
  [("happy".data, "Think of emotions that express joy or contentment.".data),
   ("fast".data, "Consider words that describe quick movement or speed.".data),
   ("big".data, "Look for words that describe large size or scale.".data),
   ("smart".data, "Think of words that describe intelligence or cleverness.".data),
   ("cold".data, "Consider words that describe low temperature or chilliness.".data),
   ("loud".data, "Look for words that describe high volume or noise.".data),
   ("small".data, "Think of words that describe tiny size or compactness.".data),
   ("beautiful".data, "Consider words that describe attractiveness or elegance.".data)]

/-- The `category_hints.get(key, default)` lookup of line 360: the key is the
lowercased sanitized target, the default message quotes the sanitized target
as displayed. -/
def lookup_category_hint (key display : List Char) : List Char :=
  match category_hints.find? (fun p => decide (p.1 = key)) with
  | some p => p.2
  | none =>
      "Think of words that have a similar meaning to ".data ++ quoteWord display ++ ".".data

/-- Embedding of `GameBuilderAgent._generate_fallback_hint` (lines 441-450),
the third, purely local strategy of the hint chain. -/
def generate_fallback_hint (guess target_word : List Char) : List Char :=
  if guess.length < 3 then
    quoteWord guess ++ " is too short. Try thinking of longer words that mean the same as ".data ++
      quoteWord target_word ++ ".".data
  else if pyLower guess = pyLower target_word then
    "You can't use the target word ".data ++ quoteWord target_word ++
      " as a guess! Try finding words that mean the same thing.".data
  else
    quoteWord guess ++ " is not a synonym of ".data ++ quoteWord target_word ++
      ". Think of words that have a similar meaning to ".data ++ quoteWord target_word ++ ".".data

/-- Embedding of `GameBuilderAgent._generate_emergency_fallback_hint` (lines
332-362): sanitize both inputs to at most 20 alphabetic characters, then the
guard, target-word, short-guess and category branches. -/
def generate_emergency_fallback_hint (guess target_word : List Char) : List Char :=
  let guess_clean := (guess.filter pyIsAlpha).take 20
  let target_clean := (target_word.filter pyIsAlpha).take 20
  if guess_clean = [] ∨ target_clean = [] then
    "Please enter a valid word to get a hint.".data
  else if pyLower guess_clean = pyLower target_clean then
    "You can't use the target word ".data ++ quoteWord target_clean ++
      " as a guess! Try finding words that mean the same thing.".data
  else if guess_clean.length < 3 then
    quoteWord guess_clean ++ " is quite short. Try thinking of longer words that mean the same as ".data ++
      quoteWord target_clean ++ ".".data
  else
    quoteWord guess_clean ++ " is not a synonym of ".data ++ quoteWord target_clean ++ ". ".data ++
      lookup_category_hint (pyLower target_clean) target_clean

/-- The strategy loop of `request_hint_analysis` (lines 278-288): strategies
run in order, a raised error (`Except.error`) moves to the next strategy, and
the first result that is a non-empty string with non-empty strip is
returned. -/
def hint_chain (methods : List (List Char → List Char → Except (List Char) (List Char)))
    (guess target_word : List Char) : Option (List Char) :=
  match methods with
  | [] => none
  | m :: ms =>
      match m guess target_word with
      | Except.ok hint =>
          if hint ≠ [] ∧ pyStrip hint ≠ [] then some hint
          else hint_chain ms guess target_word
      | Except.error _ => hint_chain ms guess target_word

/-- Embedding of `GameBuilderAgent.request_hint_analysis` (lines 250-292).
The two network-backed strategies (A2A and direct HTTP) are modelled as
arbitrary functions `m1`, `m2` that may return a hint or raise; the third
strategy is the local fallback hint, and if no strategy yields a well-formed
non-empty string the emergency fallback hint is returned. -/
def request_hint_analysis
    (m1 m2 : List Char → List Char → Except (List Char) (List Char))
    (guess target_word : List Char) : List Char :=
  if guess = [] ∨ target_word = [] then "Please enter a valid word to get a hint.".data
  else
    let g := pyStrip guess
    let t := pyStrip target_word
    if g = [] ∨ t = [] then "Please enter a valid word to get a hint.".data
    else
      match hint_chain [m1, m2, fun a b => Except.ok (generate_fallback_hint a b)] g t with
      | some hint => hint
      | none => generate_emergency_fallback_hint g t

theorem pyStrip_cons_ne_nil (c : Char) (l : List Char) (hc : pyIsSpace c = false) :
    pyStrip (c :: l) ≠ [] := by
  intro h
  unfold pyStrip at h
  rw [List.dropWhile_cons_of_neg (by simp [hc])] at h
  have h2 : ((c :: l).reverse.dropWhile pyIsSpace) = [] := by
    cases hrev : (c :: l).reverse.dropWhile pyIsSpace with
    | nil => rfl
    | cons a as => rw [hrev] at h; simp at h
  have hall := List.dropWhile_eq_nil_iff.mp h2
  have hcmem : c ∈ (c :: l).reverse := by simp
  have := hall c hcmem
  rw [hc] at this
  cases this

theorem generate_fallback_hint_ne_nil (guess target_word : List Char) :
    generate_fallback_hint guess target_word ≠ [] := by
  unfold generate_fallback_hint
  split
  · simp [quoteWord]
  · split
    · intro h
      simp at h
    · simp [quoteWord]

theorem pyStrip_generate_fallback_hint_ne_nil (guess target_word : List Char) :
    pyStrip (generate_fallback_hint guess target_word) ≠ [] := by
  have hapo : pyIsSpace apostropheChar = false := by decide
  have hY : pyIsSpace 'Y' = false := by decide
  unfold generate_fallback_hint
  split
  · simpa [quoteWord] using pyStrip_cons_ne_nil apostropheChar _ hapo
  · split
    · exact pyStrip_cons_ne_nil 'Y' _ hY
    · simpa [quoteWord] using pyStrip_cons_ne_nil apostropheChar _ hapo

theorem generate_emergency_fallback_hint_ne_nil (guess target_word : List Char) :
    generate_emergency_fallback_hint guess target_word ≠ [] := by
  unfold generate_emergency_fallback_hint
  dsimp only
  split
  · intro h; simp at h
  · split
    · intro h; simp at h
    · split
      · simp [quoteWord]
      · simp [quoteWord]

theorem hint_chain_some_ne_nil
    (ms : List (List Char → List Char → Except (List Char) (List Char))) :
    ∀ g t h, hint_chain ms g t = some h → h ≠ [] := by
  induction ms with
  | nil => intro g t h hh; simp [hint_chain] at hh
  | cons m rest ih =>
      intro g t h hh
      unfold hint_chain at hh
      split at hh
      case h_1 hint heq =>
          split at hh
          case isTrue hcond =>
              cases hh
              exact hcond.1
          case isFalse =>
              exact ih g t h hh
      case h_2 e heq =>
          exact ih g t h hh

/-- C8: the hint chain is total and error-isolating. For every pair of
network-backed strategies (including ones that always raise),
`request_hint_analysis` returns a non-empty string; an error from the first
strategy does not prevent the second from running, whose first well-formed
non-empty result is returned unchanged; and the emergency fallback hint by
itself never returns an empty string, returning the fixed prompt exactly when
alphabetic sanitization empties an input. -/
theorem C8_hint_chain_total
    (m1 m2 : List Char → List Char → Except (List Char) (List Char))
    (guess target_word : List Char) :
    request_hint_analysis m1 m2 guess target_word ≠ [] ∧
      (∀ e h, guess ≠ [] → target_word ≠ [] →
        pyStrip guess ≠ [] → pyStrip target_word ≠ [] →
        m1 (pyStrip guess) (pyStrip target_word) = Except.error e →
        m2 (pyStrip guess) (pyStrip target_word) = Except.ok h →
        h ≠ [] → pyStrip h ≠ [] →
        request_hint_analysis m1 m2 guess target_word = h) ∧
      (∀ a b : List Char, generate_emergency_fallback_hint a b ≠ [] ∧
        (((a.filter pyIsAlpha).take 20 = [] ∨ (b.filter pyIsAlpha).take 20 = []) →
          generate_emergency_fallback_hint a b =
            "Please enter a valid word to get a hint.".data)) := by
  refine ⟨?_, ?_, ?_⟩
  · unfold request_hint_analysis
    split
    · intro h; simp at h
    · dsimp only
      split
      · intro h; simp at h
      · split
        case h_1 hint heq =>
            exact hint_chain_some_ne_nil _ _ _ hint heq
        case h_2 heq =>
            exact generate_emergency_fallback_hint_ne_nil _ _
  · intro e h hg ht hgs hts hm1 hm2 hh1 hh2
    unfold request_hint_analysis
    rw [if_neg (by simp [hg, ht])]
    dsimp only
    rw [if_neg (by simp [hgs, hts])]
    have hch : hint_chain [m1, m2, fun a b => Except.ok (generate_fallback_hint a b)]
        (pyStrip guess) (pyStrip target_word) = some h := by
      simp only [hint_chain, hm1, hm2]
      rw [if_pos ⟨hh1, hh2⟩]
    rw [hch]
  · intro a b
    refine ⟨generate_emergency_fallback_hint_ne_nil a b, ?_⟩
    intro hemp
    unfold generate_emergency_fallback_hint
    dsimp only
    rw [if_pos hemp]

/-- C8 (witness): with the first strategy raising and the second returning a
well-formed hint, the hint chain returns the second strategy's hint. -/
theorem C8_hint_chain_total_witness :
    "sad".data ≠ [] ∧
      request_hint_analysis (fun _ _ => Except.error "down".data)
          (fun _ _ => Except.ok "Close, but not quite.".data)
          "sad".data "happy".data =
        "Close, but not quite.".data :=
  ⟨by decide,
    (C8_hint_chain_total (fun _ _ => Except.error "down".data)
        (fun _ _ => Except.ok "Close, but not quite.".data)
        "sad".data "happy".data).2.1 "down".data "Close, but not quite.".data
      (by decide) (by decide) (by decide) (by decide) rfl rfl (by decide) (by decide)⟩

/-- C9 (counterexample): the guess "a-b" contains the non-alphabetic character
hyphen, yet `_sanitize_and_validate_guess` accepts it (hyphens and apostrophes
are stripped before the alphabetic check, line 828), so `submit_guess` runs
full validation, records "a-b" in `guessed_words` and returns the
not-a-synonym outcome instead of a malformed-input rejection. -/
theorem C9_counterexample_hyphen_guess :
    ('-' ∈ "a-b".data ∧ pyIsAlpha '-' = false) ∧
      sanitize_and_validate_guess "a-b".data = Except.ok "a-b".data ∧
      (submit_guess noHint happySessionEx "a-b".data).1 =
        GuessOutcome.incorrect "a-b".data [] ∧
      (submit_guess noHint happySessionEx "a-b".data).2.guessed_words = ["a-b".data] := by
  exact ⟨by decide, by rfl, by decide, by decide⟩

/-- C9 (amended): a guess is accepted by input sanitization exactly when it is
non-empty, non-blank, at most 50 characters after trimming, free of spaces,
and alphabetic once hyphens and apostrophes are removed (so those two
characters are exempt from the only-letters rule); for every guess rejected by
sanitization, `submit_guess` on an Active session returns the specific
rejection reason and increments `guess_count` with no other change to the
session. -/
theorem C9_amended_malformed_rejection (hintFn : List Char → List Char → List Char)
    (s : GameSession) (g msg : List Char) :
    (sanitize_and_validate_guess g = Except.ok (pyStrip g) ↔
      (g ≠ [] ∧ pyStrip g ≠ [] ∧ (pyStrip g).length ≤ 50 ∧
        ¬((pyStrip g).contains ' ' = true) ∧
        pyIsAlphaStr ((pyStrip g).filter (fun c => !(c = '-' || c = apostropheChar))) = true)) ∧
    (s.status = GameStatus.active → sanitize_and_validate_guess g = Except.error msg →
      submit_guess hintFn s g =
        (GuessOutcome.invalidInput msg, { s with guess_count := s.guess_count + 1 })) := by
  constructor
  · constructor
    · intro hok
      unfold sanitize_and_validate_guess at hok
      by_cases h1 : g = []
      · rw [if_pos h1] at hok; cases hok
      · rw [if_neg h1] at hok
        dsimp only at hok
        by_cases h2 : pyStrip g = []
        · rw [if_pos h2] at hok; cases hok
        · rw [if_neg h2] at hok
          by_cases h3 : 50 < (pyStrip g).length
          · rw [if_pos h3] at hok; cases hok
          · rw [if_neg h3] at hok
            by_cases h4 : (pyStrip g).contains ' ' = true
            · rw [if_pos h4] at hok; cases hok
            · rw [if_neg h4] at hok
              by_cases h5 : pyIsAlphaStr
                  ((pyStrip g).filter (fun c => !(c = '-' || c = apostropheChar))) = true
              · exact ⟨h1, h2, by omega, h4, h5⟩
              · rw [if_neg h5] at hok; cases hok
    · rintro ⟨h1, h2, h3, h4, h5⟩
      unfold sanitize_and_validate_guess
      rw [if_neg h1]
      dsimp only
      rw [if_neg h2, if_neg (by omega : ¬ 50 < (pyStrip g).length), if_neg h4, if_pos h5]
  · intro hact herr
    unfold submit_guess
    rw [if_neg (by simp [hact] : ¬(s.status ≠ GameStatus.active))]
    rw [herr]

/-- C9 (witness): the multi-word guess "two words" is rejected with the
specific reason and only the guess count changes. -/
theorem C9_amended_malformed_rejection_witness :
    happySessionEx.status = GameStatus.active ∧
      sanitize_and_validate_guess "two words".data =
        Except.error "Please enter only one word".data ∧
      submit_guess noHint happySessionEx "two words".data =
        (GuessOutcome.invalidInput "Please enter only one word".data,
          { happySessionEx with guess_count := happySessionEx.guess_count + 1 }) :=
  ⟨rfl, by rfl,
    (C9_amended_malformed_rejection noHint happySessionEx "two words".data
        "Please enter only one word".data).2 rfl (by rfl)⟩

/-- The externally exposed game-state snapshot built by
`GameBuilderAgent._get_game_state_dict` (lines 909-924): target word, per-slot
revealed word, letter count and found flag, guess count, serialized status and
guessed words — and nothing else. -/
structure GameStateDict where
  targetWord : List Char
  synonyms : List (Option (List Char) × Nat × Bool)
  guessCount : Nat
  status : List Char
  guessedWords : List (List Char)
deriving DecidableEq

/-- Embedding of `GameBuilderAgent._get_game_state_dict` (lines 909-924). -/
def get_game_state_dict (s : GameSession) : GameStateDict :=
  { targetWord := s.target_word,
    synonyms := s.synonyms.map (fun slot => (slot.word, slot.letter_count, slot.found)),
    guessCount := s.guess_count,
    status := status_value s.status,
    guessedWords := s.guessed_words }

/-- C10: the snapshot is a function of the target word, slots, guess count,
status and guessed words only — two sessions that agree on those fields but
carry different hidden synonym lists produce identical snapshots, so a hidden
synonym of an unfound slot never reaches any response. -/
theorem C10_snapshot_independent_of_hidden_synonyms (s1 s2 : GameSession)
    (ht : s1.target_word = s2.target_word)
    (hs : s1.synonyms = s2.synonyms)
    (hc : s1.guess_count = s2.guess_count)
    (hst : s1.status = s2.status)
    (hg : s1.guessed_words = s2.guessed_words) :
    get_game_state_dict s1 = get_game_state_dict s2 := by
  unfold get_game_state_dict
  rw [ht, hs, hc, hst, hg]

/-- C10 (witness): two fresh sessions with entirely different hidden synonym
lists (of the same letter counts) yield identical snapshots. -/
theorem C10_snapshot_witness :
    (start_session "happy".data
          ["joyful".data, "cheerful".data, "glad".data, "pleased".data]).actual_synonyms ≠
        (start_session "happy".data
          ["strong".data, "enormous".data, "tiny".data, "massive".data]).actual_synonyms ∧
      get_game_state_dict (start_session "happy".data
          ["joyful".data, "cheerful".data, "glad".data, "pleased".data]) =
        get_game_state_dict (start_session "happy".data
          ["strong".data, "enormous".data, "tiny".data, "massive".data]) :=
  ⟨by decide,
    C10_snapshot_independent_of_hidden_synonyms _ _ rfl (by decide) rfl rfl rfl⟩
